import Mathlib

/-!
Verification of the real-time audio streaming engine
(`src/lib/audio-streamer.ts`, the `AudioRecorder` class, and `lib/utils.ts`).

The playback scheduler (`AudioStreamer`) is embedded as an explicit state
machine over `StreamerState`; device time is modelled as a rational number,
normalized samples as rationals (every value `int16 / 32768` is exact in
IEEE binary32, so rational arithmetic is a faithful model of the float
arithmetic the source performs).  The capture pipeline (`AudioRecorder`)
is embedded as a state machine over `RecorderState`.
-/

/-- Signed little-endian 16-bit decoding of two bytes, as performed by
`DataView.getInt16(offset, true)`: `lo` is the byte at the offset, `hi` the
byte after it. -/
def toInt16 (lo hi : Nat) : Int :=
  if hi * 256 + lo < 32768 then ((hi * 256 + lo : Nat) : Int)
  else ((hi * 256 + lo : Nat) : Int) - 65536

/-- Normalized samples of a PCM16 little-endian byte list: each consecutive
byte pair becomes `int16 / 32768` (audio-streamer.ts, `addPCM16` loop). -/
def pcm16Samples : List Nat → List ℚ
  | lo :: hi :: rest => ((toInt16 lo hi : Int) : ℚ) / 32768 :: pcm16Samples rest
  | _ => []

/-- Model of `dataView.getInt16(off, true)` for a `DataView` covering the whole
underlying buffer: reads the two bytes at absolute offsets `off`, `off+1`;
`none` models the `RangeError` thrown when they are out of bounds. -/
def getInt16LE (buffer : List Nat) (off : Nat) : Option Int :=
  match buffer.drop off with
  | lo :: hi :: _ => some (toInt16 lo hi)
  | _ => none

/-- Model of the decoding loop of `addPCM16` (audio-streamer.ts lines 161-171)
applied to a `Uint8Array` view of length `len` over `buffer`.  The source
constructs `new DataView(chunk.buffer)` — a view of the WHOLE underlying
buffer, ignoring `chunk.byteOffset` — and reads sample `i` at absolute byte
offset `2*i`.  A thrown `RangeError` is caught per-sample, leaving the
corresponding `Float32Array` slot at its initial value `0`.  For ODD `len`,
`new Float32Array(len / 2)` truncates (ToIndex) to `floor(len / 2)` slots;
the extra loop iteration at `i = floor(len / 2)` either throws on the
boundary read (caught) or writes out of the array bounds (discarded), so it
never contributes a sample — hence `List.range (len / 2)` with natural
floor division is the exact slot count for even and odd lengths alike. -/
def decodeChunkView (buffer : List Nat) (len : Nat) : List ℚ :=
  (List.range (len / 2)).map fun i =>
    match getInt16LE buffer (2 * i) with
    | some v => ((v : Int) : ℚ) / 32768
    | none => 0

/-- The bytes a `Uint8Array` view with byte offset `off` and length `len`
designates inside its underlying buffer. -/
def viewBytes (buffer : List Nat) (off len : Nat) : List Nat :=
  (buffer.drop off).take len

/-- Frame size in samples (`bufferSize = 7680` in audio-streamer.ts). -/
def bufferSize : Nat := 7680

/-- Output sample rate (`sampleRate = 24000` in audio-streamer.ts). -/
def sampleRate : ℚ := 24000

/-- Lead-in delay before first playback (`initialBufferTime = 0.1`). -/
def initialBufferTime : ℚ := 1 / 10

/-- Lookahead window of the scheduling loop (`SCHEDULE_AHEAD_TIME = 0.2`). -/
def scheduleAheadTime : ℚ := 1 / 5

/-- The while-loop of `addPCM16` (lines 180-184): repeatedly slice a full
frame of `bufferSize` samples off the front of the accumulation buffer;
returns the sliced frames in order and the below-frame-size remainder. -/
def extractFrames (pb : List ℚ) : List (List ℚ) × List ℚ :=
  if h : bufferSize ≤ pb.length then
    let r := extractFrames (pb.drop bufferSize)
    (pb.take bufferSize :: r.1, r.2)
  else ([], pb)
termination_by pb.length
decreasing_by
  have hb : bufferSize = 7680 := rfl
  simp only [List.length_drop]
  omega

/-- State of one `AudioStreamer` instance.  The fields mirror the mutable
fields of the class; `endOfQueueSource` holds the identity (a fresh number
per created `AudioBufferSourceNode`) of the source whose `onended` callback
is currently installed.  `onCompleteCount`, `samplesLog`, `pushedLog` and
`started` are history (ghost) fields recording the observable events:
number of `onComplete()` invocations, every normalized sample produced by
ingestion, every frame pushed onto `audioQueue`, and the
`(startTime, frame length)` of every frame handed to `source.start`. -/
structure StreamerState where
  audioQueue : List (List ℚ)
  isPlaying : Bool
  processingBuffer : List ℚ
  scheduledTime : ℚ
  isStreamComplete : Bool
  checkInterval : Bool
  endOfQueueSource : Option Nat
  nextSid : Nat
  onCompleteCount : Nat
  samplesLog : List ℚ
  pushedLog : List (List ℚ)
  started : List (ℚ × Nat)
deriving DecidableEq

/-- Initial state of a freshly constructed `AudioStreamer`. -/
def initState : StreamerState :=
  { audioQueue := []
    isPlaying := false
    processingBuffer := []
    scheduledTime := 0
    isStreamComplete := false
    checkInterval := false
    endOfQueueSource := none
    nextSid := 0
    onCompleteCount := 0
    samplesLog := []
    pushedLog := []
    started := [] }

namespace AudioStreamer

/-- The while-loop of `scheduleNextBuffer` (lines 208-239), with the device
clock frozen at `now` for the duration of the synchronous loop.  Each
iteration pops the head frame, starts it at `max scheduledTime now`, advances
`scheduledTime` by the frame duration `length / sampleRate`, and — when the
pop empties the queue — installs this source as the end-of-queue source
(clearing the `onended` of the previously installed one). -/
def schedLoopGo (now : ℚ) : List (List ℚ) → StreamerState → StreamerState
  | [], s => { s with audioQueue := [] }
  | f :: rest, s =>
    if s.scheduledTime < now + scheduleAheadTime then
      schedLoopGo now rest
        { s with
          audioQueue := rest
          scheduledTime := max s.scheduledTime now + (f.length : ℚ) / sampleRate
          nextSid := s.nextSid + 1
          endOfQueueSource := if rest = [] then some s.nextSid else s.endOfQueueSource
          started := s.started ++ [(max s.scheduledTime now, f.length)] }
    else { s with audioQueue := f :: rest }

/-- `scheduleNextBuffer` (lines 203-268): run the scheduling loop, then —
if both queue and accumulation buffer are empty — either go idle (when the
stream is complete) or start the 100 ms polling interval; otherwise a
one-shot timer is scheduled (no state change in the model: timer firings are
the external `tick` events). -/
def scheduleNextBuffer (s : StreamerState) (now : ℚ) : StreamerState :=
  let s1 := schedLoopGo now s.audioQueue s
  if s1.audioQueue = [] ∧ s1.processingBuffer = [] then
    if s1.isStreamComplete then
      { s1 with isPlaying := false, checkInterval := false }
    else { s1 with checkInterval := true }
  else s1

/-- `addPCM16(chunk)` (lines 158-191), invoked at device time `now`: decode
the chunk, append to the accumulation buffer, slice off all full frames onto
the queue, and — when playback is idle — set `scheduledTime = now + 0.1`
and run a scheduling pass. -/
def addPCM16 (s : StreamerState) (chunk : List Nat) (now : ℚ) : StreamerState :=
  let samples := decodeChunkView chunk chunk.length
  let fr := extractFrames (s.processingBuffer ++ samples)
  let s1 := { s with
    processingBuffer := fr.2
    audioQueue := s.audioQueue ++ fr.1
    samplesLog := s.samplesLog ++ samples
    pushedLog := s.pushedLog ++ fr.1 }
  if s1.isPlaying then s1
  else
    scheduleNextBuffer
      { s1 with isPlaying := true, scheduledTime := now + initialBufferTime } now

/-- `complete()` (lines 327-338), with the inner `scheduleNextBuffer` call
running at device time `now`: set the completion flag; flush a non-empty
accumulation buffer onto the queue as a final (possibly short) frame and
resume scheduling if playing; otherwise invoke `onComplete()` immediately. -/
def complete (s : StreamerState) (now : ℚ) : StreamerState :=
  let s1 := { s with isStreamComplete := true }
  if s.processingBuffer = [] then
    { s1 with onCompleteCount := s1.onCompleteCount + 1 }
  else
    let s2 := { s1 with
      audioQueue := s1.audioQueue ++ [s.processingBuffer]
      pushedLog := s1.pushedLog ++ [s.processingBuffer]
      processingBuffer := [] }
    if s2.isPlaying then scheduleNextBuffer s2 now else s2

/-- `stop()` (lines 292-325): mark idle and complete, clear queue and
accumulation buffer, reset `scheduledTime` to now, cancel the polling
interval.  (Gain-node fade-out and worklet detachment are outside the
modelled state.) -/
def stop (s : StreamerState) (now : ℚ) : StreamerState :=
  { s with
    isPlaying := false
    isStreamComplete := true
    audioQueue := []
    processingBuffer := []
    scheduledTime := now
    checkInterval := false }

/-- `resume()` (lines 270-290): reset the completion flag and
`scheduledTime = now + 0.1`.  (Gain ramping is outside the modelled state.) -/
def resume (s : StreamerState) (now : ℚ) : StreamerState :=
  { s with isStreamComplete := false, scheduledTime := now + initialBufferTime }

/-- The `onended` callback of an end-of-queue source (lines 221-226): when
the queue is empty and this source is still the installed end-of-queue
source, clear the slot and invoke `onComplete()`. -/
def sourceEnded (s : StreamerState) (sid : Nat) : StreamerState :=
  if s.audioQueue = [] ∧ s.endOfQueueSource = some sid then
    { s with endOfQueueSource := none, onCompleteCount := s.onCompleteCount + 1 }
  else s

end AudioStreamer

/-- External events driving one `AudioStreamer`: the public operations
(each stamped with the device time at which it runs), timer-driven
scheduling passes, and `onended` callback deliveries. -/
inductive PEvent where
  | ingest (chunk : List Nat) (now : ℚ)
  | complete (now : ℚ)
  | stop (now : ℚ)
  | resume (now : ℚ)
  | tick (now : ℚ)
  | ended (sid : Nat)
deriving DecidableEq

/-- One step of the streamer state machine. -/
def stepEvent (s : StreamerState) : PEvent → StreamerState
  | .ingest chunk now => AudioStreamer.addPCM16 s chunk now
  | .complete now => AudioStreamer.complete s now
  | .stop now => AudioStreamer.stop s now
  | .resume now => AudioStreamer.resume s now
  | .tick now => AudioStreamer.scheduleNextBuffer s now
  | .ended sid => AudioStreamer.sourceEnded s sid

/-- Run a sequence of events. -/
def runEvents (s : StreamerState) : List PEvent → StreamerState
  | [] => s
  | e :: es => runEvents (stepEvent s e) es

/-- The event list of a sequence of `addPCM16` calls, each given as
(chunk bytes, device time of the call). -/
def ingests (evs : List (List Nat × ℚ)) : List PEvent :=
  evs.map fun p => PEvent.ingest p.1 p.2

/-- The event list of a sequence of scheduling passes at the given device
times. -/
def ticks (ts : List ℚ) : List PEvent :=
  ts.map PEvent.tick

/-- A run of scheduling passes is jitter free when, at each pass, the device
clock has not yet overtaken the schedule clock (the scheduler never wakes
late). -/
def jitterFree (s : StreamerState) : List ℚ → Prop
  | [] => True
  | t :: ts => t ≤ s.scheduledTime ∧ jitterFree (stepEvent s (PEvent.tick t)) ts

/-- Events that can occur while a completed stream drains: timer-driven
scheduling passes and `onended` callback deliveries (no further ingestion,
no further lifecycle calls). -/
def isDrainEvent : PEvent → Prop
  | PEvent.tick _ => True
  | PEvent.ended _ => True
  | _ => False

/-- A streamer mid-session: two full frames queued, playback started, next
frame due at device time 0.199 s. -/
def c2CexState : StreamerState :=
  { initState with
    audioQueue := [List.replicate 7680 0, List.replicate 7680 0]
    isPlaying := true
    scheduledTime := 199 / 1000 }

/-! Capture pipeline (`AudioRecorder` in use-live-api.ts source bundle). -/

/-- Ready state of a `MediaStreamTrack` (`"live"` or `"ended"`). -/
inductive ReadyState where
  | live
  | ended
deriving DecidableEq

/-- One hardware audio track.  `readyState = none` models a missing/undefined
ready state (the falsy case of `!track.readyState`); `stopped` records that
`track.stop()` has been called. -/
structure MTrack where
  enabled : Bool
  muted : Bool
  readyState : Option ReadyState
  stopped : Bool
deriving DecidableEq

/-- The per-track health test of `checkStreamHealth` (line 198):
`!track.enabled || track.muted || !track.readyState ||
track.readyState === "ended"`. -/
def trackUnhealthy (t : MTrack) : Bool :=
  !t.enabled || t.muted || t.readyState == none || t.readyState == some ReadyState.ended

/-- The track loop of `checkStreamHealth` (lines 196-209): walk the tracks in
order; at the first unhealthy track, trigger one `restartStream()` and
`break`.  Returns `(number of tracks inspected, number of restarts
triggered)`. -/
def checkStreamHealth : List MTrack → Nat × Nat
  | [] => (0, 0)
  | t :: ts =>
    if trackUnhealthy t then (1, 1)
    else ((checkStreamHealth ts).1 + 1, (checkStreamHealth ts).2)

/-- State of one `AudioRecorder` instance.  Object identities (promises,
source nodes) are modelled as numbers drawn from the `nextId` counter.
`getUserMediaCount` counts hardware-stream acquisitions initiated and
`errorCount` the `error` events emitted. -/
structure RecorderState where
  stream : Option (List MTrack)
  recording : Bool
  audioContext : Option Nat
  sourceId : Option Nat
  recordingWorklet : Option Nat
  vuWorklet : Option Nat
  starting : Option Nat
  nextId : Nat
  getUserMediaCount : Nat
  errorCount : Nat
deriving DecidableEq

/-- The synchronous prefix of `AudioRecorder.start()` (lines 248-258): the
method performs NO check of `this.starting`; it unconditionally constructs a
new promise — whose executor immediately initiates a fresh `getUserMedia`
acquisition — stores it in `this.starting`, and returns it.  The returned
number is the identity of the promise handed back to the caller. -/
def startCall (s : RecorderState) : Nat × RecorderState :=
  (s.nextId,
    { s with
      starting := some s.nextId
      nextId := s.nextId + 1
      getUserMediaCount := s.getUserMediaCount + 1 })

/-- `track.stop()` on every track of a stream (restartStream lines 215-217). -/
def stopTracks (ts : List MTrack) : List MTrack :=
  ts.map fun t => { t with stopped := true }

/-- The try-block of `restartStream()` (lines 213-241): stop the old tracks,
then await a fresh `getUserMedia` stream (`acq = none` models rejection,
propagated as `Except.error`); on success install the new stream and, when an
audio context and source node exist, replace the source node, reconnecting it
to the EXISTING recording and metering worklets. -/
def restartStreamBody (s : RecorderState) (acq : Option (List MTrack)) :
    Except Unit RecorderState :=
  let s1 := { s with
    stream := s.stream.map stopTracks
    getUserMediaCount := s.getUserMediaCount + 1 }
  match acq with
  | none => Except.error ()
  | some ts =>
    let s2 := { s1 with stream := some ts }
    if s2.audioContext.isSome ∧ s2.sourceId.isSome then
      Except.ok { s2 with sourceId := some s2.nextId, nextId := s2.nextId + 1 }
    else Except.ok s2

/-- `restartStream()` (lines 212-246): the whole body runs inside
`try ... catch`; a failure is caught, logged, and reported through an
`error` event — it never escapes, so the function is total. -/
def restartStream (s : RecorderState) (acq : Option (List MTrack)) :
    RecorderState :=
  match restartStreamBody s acq with
  | Except.ok s2 => s2
  | Except.error _ =>
    { s with
      stream := s.stream.map stopTracks
      getUserMediaCount := s.getUserMediaCount + 1
      errorCount := s.errorCount + 1 }

/-- A healthy live track. -/
def liveTrack : MTrack :=
  { enabled := true, muted := false, readyState := some ReadyState.live,
    stopped := false }

/-- A muted (unhealthy) live track. -/
def mutedTrack : MTrack :=
  { enabled := true, muted := true, readyState := some ReadyState.live,
    stopped := false }

/-- A recorder with one start in flight: the starting promise is promise 0
and one hardware acquisition has been made. -/
def c7CexState : RecorderState :=
  { stream := none
    recording := false
    audioContext := none
    sourceId := none
    recordingWorklet := none
    vuWorklet := none
    starting := some 0
    nextId := 1
    getUserMediaCount := 1
    errorCount := 0 }

/-! Basic facts about PCM16 decoding. -/

lemma toInt16_bounds (lo hi : Nat) (hlo : lo < 256) (hhi : hi < 256) :
    -32768 ≤ toInt16 lo hi ∧ toInt16 lo hi ≤ 32767 := by
  unfold toInt16
  split <;> omega

lemma pcm16Samples_length : ∀ bs : List Nat, (pcm16Samples bs).length = bs.length / 2
  | [] => rfl
  | [_] => by simp [pcm16Samples]
  | lo :: hi :: rest => by
    simp only [pcm16Samples, List.length_cons, pcm16Samples_length rest]
    omega

lemma pcm16Samples_append : ∀ bs : List Nat, 2 ∣ bs.length → ∀ cs : List Nat,
    pcm16Samples (bs ++ cs) = pcm16Samples bs ++ pcm16Samples cs
  | [], _, _ => rfl
  | [_], h, _ => by simp at h
  | lo :: hi :: rest, h, cs => by
    have hr : 2 ∣ rest.length := by simp only [List.length_cons] at h; omega
    simp only [List.cons_append, pcm16Samples, List.append_eq,
      pcm16Samples_append rest hr cs]

lemma pcm16Samples_mem_bounds : ∀ bs : List Nat, (∀ b ∈ bs, b < 256) →
    ∀ x ∈ pcm16Samples bs, -1 ≤ x ∧ x ≤ 1
  | [], _, x, hx => by simp [pcm16Samples] at hx
  | [_], _, x, hx => by simp [pcm16Samples] at hx
  | lo :: hi :: rest, hb, x, hx => by
    simp only [pcm16Samples, List.mem_cons] at hx
    rcases hx with hx | hx
    · have hlo : lo < 256 := hb lo (by simp)
      have hhi : hi < 256 := hb hi (by simp)
      obtain ⟨h1, h2⟩ := toInt16_bounds lo hi hlo hhi
      subst hx
      have h1q : ((-32768 : Int) : ℚ) ≤ ((toInt16 lo hi : Int) : ℚ) := by exact_mod_cast h1
      have h2q : ((toInt16 lo hi : Int) : ℚ) ≤ ((32767 : Int) : ℚ) := by exact_mod_cast h2
      push_cast at h1q h2q
      constructor
      · rw [le_div_iff₀ (by norm_num : (0:ℚ) < 32768)]
        linarith
      · rw [div_le_one (by norm_num : (0:ℚ) < 32768)]
        linarith
    · exact pcm16Samples_mem_bounds rest (fun b hbb => hb b (by simp [hbb])) x hx

lemma pcm16Samples_getD : ∀ (bs : List Nat) (i : Nat), i < (pcm16Samples bs).length →
    (pcm16Samples bs).getD i 0 =
      ((toInt16 (bs.getD (2 * i) 0) (bs.getD (2 * i + 1) 0) : Int) : ℚ) / 32768
  | [], i, h => by simp [pcm16Samples] at h
  | [_], i, h => by simp [pcm16Samples] at h
  | lo :: hi :: rest, 0, _ => by simp [pcm16Samples]
  | lo :: hi :: rest, i + 1, h => by
    have h2 : 2 * (i + 1) = 2 * i + 1 + 1 := by omega
    simp only [pcm16Samples, List.getD_cons_succ, h2]
    exact pcm16Samples_getD rest i (by simpa [pcm16Samples] using h)

lemma getInt16LE_eq (buffer : List Nat) (i : Nat) (h : 2 * i + 1 < buffer.length) :
    getInt16LE buffer (2 * i) =
      some (toInt16 (buffer.getD (2 * i) 0) (buffer.getD (2 * i + 1) 0)) := by
  unfold getInt16LE
  rw [List.drop_eq_getElem_cons (by omega : 2 * i < buffer.length),
    List.drop_eq_getElem_cons (by omega : 2 * i + 1 < buffer.length)]
  rw [List.getD_eq_getElem _ _ (by omega : 2 * i < buffer.length),
    List.getD_eq_getElem _ _ h]

lemma decodeChunkView_length (buffer : List Nat) (len : Nat) :
    (decodeChunkView buffer len).length = len / 2 := by
  simp [decodeChunkView]

lemma decodeChunkView_eq (buffer : List Nat) (len : Nat) (heven : 2 ∣ len)
    (hlen : len ≤ buffer.length) :
    decodeChunkView buffer len = pcm16Samples (buffer.take len) := by
  apply List.ext_getElem
  · simp only [decodeChunkView_length, pcm16Samples_length, List.length_take]
    omega
  · intro i h1 h2
    have hi : i < len / 2 := by simpa [decodeChunkView_length] using h1
    have hib : 2 * i + 1 < buffer.length := by omega
    have hit : 2 * i + 1 < (buffer.take len).length := by
      simp only [List.length_take]
      omega
    have hit0 : 2 * i < (buffer.take len).length := by omega
    have hib0 : 2 * i < buffer.length := by omega
    rw [show (pcm16Samples (buffer.take len))[i] =
        (pcm16Samples (buffer.take len)).getD i 0 from
      (List.getD_eq_getElem _ _ h2).symm]
    rw [pcm16Samples_getD _ i h2]
    simp only [decodeChunkView, List.getElem_map, List.getElem_range]
    rw [getInt16LE_eq buffer i hib]
    have e1 : (buffer.take len).getD (2 * i) 0 = buffer.getD (2 * i) 0 := by
      rw [List.getD_eq_getElem _ _ hit0, List.getD_eq_getElem _ _ hib0]
      exact List.getElem_take buffer
    have e2 : (buffer.take len).getD (2 * i + 1) 0 = buffer.getD (2 * i + 1) 0 := by
      rw [List.getD_eq_getElem _ _ hit, List.getD_eq_getElem _ _ hib]
      exact List.getElem_take buffer
    rw [e1, e2]

/-! Facts about the frame-slicing loop. -/

lemma extractFrames_small (l : List ℚ) (h : l.length < bufferSize) :
    extractFrames l = ([], l) := by
  rw [extractFrames, dif_neg (by omega)]

lemma extractFrames_rem_lt (l : List ℚ) : (extractFrames l).2.length < bufferSize := by
  induction l using extractFrames.induct with
  | case1 l h ih =>
    rw [extractFrames, dif_pos h]
    exact ih
  | case2 l h =>
    rw [extractFrames, dif_neg h]
    dsimp only
    omega

lemma extractFrames_append (x y : List ℚ) :
    extractFrames (x ++ y) =
      ((extractFrames x).1 ++ (extractFrames ((extractFrames x).2 ++ y)).1,
        (extractFrames ((extractFrames x).2 ++ y)).2) := by
  induction x using extractFrames.induct generalizing y with
  | case1 x h ih =>
    have hxy : bufferSize ≤ (x ++ y).length := by
      simp only [List.length_append]
      omega
    rw [extractFrames, dif_pos hxy]
    conv_rhs => rw [extractFrames, dif_pos h]
    dsimp only
    simp only [List.take_append_of_le_length h, List.drop_append_of_le_length h]
    rw [ih y]
    simp
  | case2 x h =>
    rw [extractFrames_small x (by omega)]
    simp

lemma extractFrames_frame_mem (l : List ℚ) :
    ∀ f ∈ (extractFrames l).1, f.length = bufferSize := by
  induction l using extractFrames.induct with
  | case1 l h ih =>
    rw [extractFrames, dif_pos h]
    dsimp only
    intro f hf
    rcases List.mem_cons.mp hf with hf | hf
    · subst hf
      simp only [List.length_take]
      omega
    · exact ih f hf
  | case2 l h =>
    rw [extractFrames, dif_neg h]
    simp

/-! Preservation facts: which fields each operation leaves untouched. -/

namespace AudioStreamer

@[simp] lemma schedLoopGo_processingBuffer (now : ℚ) :
    ∀ (q : List (List ℚ)) (s : StreamerState),
      (schedLoopGo now q s).processingBuffer = s.processingBuffer
  | [], _ => rfl
  | f :: rest, s => by
    rw [schedLoopGo]
    split
    · exact schedLoopGo_processingBuffer now rest _
    · rfl

@[simp] lemma schedLoopGo_samplesLog (now : ℚ) :
    ∀ (q : List (List ℚ)) (s : StreamerState),
      (schedLoopGo now q s).samplesLog = s.samplesLog
  | [], _ => rfl
  | f :: rest, s => by
    rw [schedLoopGo]
    split
    · exact schedLoopGo_samplesLog now rest _
    · rfl

@[simp] lemma schedLoopGo_pushedLog (now : ℚ) :
    ∀ (q : List (List ℚ)) (s : StreamerState),
      (schedLoopGo now q s).pushedLog = s.pushedLog
  | [], _ => rfl
  | f :: rest, s => by
    rw [schedLoopGo]
    split
    · exact schedLoopGo_pushedLog now rest _
    · rfl

@[simp] lemma schedLoopGo_isStreamComplete (now : ℚ) :
    ∀ (q : List (List ℚ)) (s : StreamerState),
      (schedLoopGo now q s).isStreamComplete = s.isStreamComplete
  | [], _ => rfl
  | f :: rest, s => by
    rw [schedLoopGo]
    split
    · exact schedLoopGo_isStreamComplete now rest _
    · rfl

@[simp] lemma schedLoopGo_onCompleteCount (now : ℚ) :
    ∀ (q : List (List ℚ)) (s : StreamerState),
      (schedLoopGo now q s).onCompleteCount = s.onCompleteCount
  | [], _ => rfl
  | f :: rest, s => by
    rw [schedLoopGo]
    split
    · exact schedLoopGo_onCompleteCount now rest _
    · rfl

@[simp] lemma schedLoopGo_isPlaying (now : ℚ) :
    ∀ (q : List (List ℚ)) (s : StreamerState),
      (schedLoopGo now q s).isPlaying = s.isPlaying
  | [], _ => rfl
  | f :: rest, s => by
    rw [schedLoopGo]
    split
    · exact schedLoopGo_isPlaying now rest _
    · rfl

@[simp] lemma scheduleNextBuffer_processingBuffer (s : StreamerState) (now : ℚ) :
    (scheduleNextBuffer s now).processingBuffer = s.processingBuffer := by
  unfold scheduleNextBuffer
  dsimp only
  split_ifs <;> simp

@[simp] lemma scheduleNextBuffer_samplesLog (s : StreamerState) (now : ℚ) :
    (scheduleNextBuffer s now).samplesLog = s.samplesLog := by
  unfold scheduleNextBuffer
  dsimp only
  split_ifs <;> simp

@[simp] lemma scheduleNextBuffer_pushedLog (s : StreamerState) (now : ℚ) :
    (scheduleNextBuffer s now).pushedLog = s.pushedLog := by
  unfold scheduleNextBuffer
  dsimp only
  split_ifs <;> simp

@[simp] lemma scheduleNextBuffer_isStreamComplete (s : StreamerState) (now : ℚ) :
    (scheduleNextBuffer s now).isStreamComplete = s.isStreamComplete := by
  unfold scheduleNextBuffer
  dsimp only
  split_ifs <;> simp

@[simp] lemma scheduleNextBuffer_onCompleteCount (s : StreamerState) (now : ℚ) :
    (scheduleNextBuffer s now).onCompleteCount = s.onCompleteCount := by
  unfold scheduleNextBuffer
  dsimp only
  split_ifs <;> simp

end AudioStreamer

namespace AudioStreamer

lemma addPCM16_samplesLog (s : StreamerState) (chunk : List Nat) (now : ℚ) :
    (addPCM16 s chunk now).samplesLog
      = s.samplesLog ++ decodeChunkView chunk chunk.length := by
  unfold addPCM16
  dsimp only
  split_ifs <;> simp

lemma addPCM16_pushedLog (s : StreamerState) (chunk : List Nat) (now : ℚ) :
    (addPCM16 s chunk now).pushedLog
      = s.pushedLog
        ++ (extractFrames (s.processingBuffer ++ decodeChunkView chunk chunk.length)).1 := by
  unfold addPCM16
  dsimp only
  split_ifs <;> simp

lemma addPCM16_processingBuffer (s : StreamerState) (chunk : List Nat) (now : ℚ) :
    (addPCM16 s chunk now).processingBuffer
      = (extractFrames (s.processingBuffer ++ decodeChunkView chunk chunk.length)).2 := by
  unfold addPCM16
  dsimp only
  split_ifs <;> simp

lemma addPCM16_isStreamComplete (s : StreamerState) (chunk : List Nat) (now : ℚ) :
    (addPCM16 s chunk now).isStreamComplete = s.isStreamComplete := by
  unfold addPCM16
  dsimp only
  split_ifs <;> simp

lemma addPCM16_onCompleteCount (s : StreamerState) (chunk : List Nat) (now : ℚ) :
    (addPCM16 s chunk now).onCompleteCount = s.onCompleteCount := by
  unfold addPCM16
  dsimp only
  split_ifs <;> simp

lemma complete_isStreamComplete (s : StreamerState) (now : ℚ) :
    (complete s now).isStreamComplete = true := by
  unfold complete
  dsimp only
  split_ifs <;> simp

lemma complete_of_nonempty (s : StreamerState) (now : ℚ)
    (h : s.processingBuffer ≠ []) :
    (complete s now).pushedLog = s.pushedLog ++ [s.processingBuffer] ∧
    (complete s now).processingBuffer = [] ∧
    (complete s now).onCompleteCount = s.onCompleteCount := by
  unfold complete
  dsimp only
  rw [if_neg h]
  split_ifs <;> simp

lemma complete_of_empty (s : StreamerState) (now : ℚ)
    (h : s.processingBuffer = []) :
    (complete s now).onCompleteCount = s.onCompleteCount + 1 ∧
    (complete s now).processingBuffer = s.processingBuffer ∧
    (complete s now).audioQueue = s.audioQueue := by
  unfold complete
  dsimp only
  rw [if_pos h]
  exact ⟨rfl, rfl, rfl⟩

end AudioStreamer

/-- Characterization of a run of ingest calls: the produced samples are the
decoding of the concatenated bytes, and the frames pushed (and the leftover
accumulation buffer) are the greedy frame slicing of the concatenated
samples. -/
lemma runEvents_ingests_char :
    ∀ (evs : List (List Nat × ℚ)) (s : StreamerState),
      (∀ p ∈ evs, 2 ∣ p.1.length) →
      s.processingBuffer.length < bufferSize →
      (runEvents s (ingests evs)).samplesLog
          = s.samplesLog ++ pcm16Samples (evs.map Prod.fst).flatten ∧
      (runEvents s (ingests evs)).pushedLog
          = s.pushedLog
            ++ (extractFrames
                (s.processingBuffer ++ pcm16Samples (evs.map Prod.fst).flatten)).1 ∧
      (runEvents s (ingests evs)).processingBuffer
          = (extractFrames
              (s.processingBuffer ++ pcm16Samples (evs.map Prod.fst).flatten)).2
  | [], s, _, hpb => by
    simp [ingests, runEvents, pcm16Samples, extractFrames_small _ hpb]
  | (c, t) :: rest, s, heven, hpb => by
    have hc : 2 ∣ c.length := heven (c, t) (by simp)
    have hrest : ∀ p ∈ rest, 2 ∣ p.1.length := fun p hp => heven p (by simp [hp])
    have hdec : decodeChunkView c c.length = pcm16Samples c := by
      rw [decodeChunkView_eq c c.length hc (le_refl _), List.take_length]
    have hstep : stepEvent s (PEvent.ingest c t) = AudioStreamer.addPCM16 s c t := rfl
    have hpb1 :
        (AudioStreamer.addPCM16 s c t).processingBuffer.length < bufferSize := by
      rw [AudioStreamer.addPCM16_processingBuffer]
      exact extractFrames_rem_lt _
    obtain ⟨ih1, ih2, ih3⟩ :=
      runEvents_ingests_char rest (AudioStreamer.addPCM16 s c t) hrest hpb1
    have hjoin : ((((c, t) :: rest).map Prod.fst).flatten : List Nat)
        = c ++ (rest.map Prod.fst).flatten := by simp
    have hsplit : pcm16Samples (c ++ (rest.map Prod.fst).flatten)
        = pcm16Samples c ++ pcm16Samples (rest.map Prod.fst).flatten :=
      pcm16Samples_append c hc _
    refine ⟨?_, ?_, ?_⟩
    · show (runEvents (stepEvent s (PEvent.ingest c t)) (ingests rest)).samplesLog = _
      rw [hstep, ih1, AudioStreamer.addPCM16_samplesLog, hdec, hjoin, hsplit,
        List.append_assoc]
    · show (runEvents (stepEvent s (PEvent.ingest c t)) (ingests rest)).pushedLog = _
      rw [hstep, ih2, AudioStreamer.addPCM16_pushedLog,
        AudioStreamer.addPCM16_processingBuffer, hdec, hjoin, hsplit]
      rw [← List.append_assoc s.processingBuffer,
        extractFrames_append (s.processingBuffer ++ pcm16Samples c)
          (pcm16Samples (rest.map Prod.fst).flatten)]
      simp [List.append_assoc]
    · show (runEvents (stepEvent s (PEvent.ingest c t)) (ingests rest)).processingBuffer = _
      rw [hstep, ih3, AudioStreamer.addPCM16_processingBuffer, hdec, hjoin, hsplit]
      rw [← List.append_assoc s.processingBuffer,
        extractFrames_append (s.processingBuffer ++ pcm16Samples c)
          (pcm16Samples (rest.map Prod.fst).flatten)]

lemma stepEvent_processingBuffer_lt (s : StreamerState) (e : PEvent)
    (h : s.processingBuffer.length < bufferSize) :
    (stepEvent s e).processingBuffer.length < bufferSize := by
  have hb : (0 : Nat) < bufferSize := by norm_num [bufferSize]
  cases e with
  | ingest chunk now =>
    show (AudioStreamer.addPCM16 s chunk now).processingBuffer.length < bufferSize
    rw [AudioStreamer.addPCM16_processingBuffer]
    exact extractFrames_rem_lt _
  | complete now =>
    show (AudioStreamer.complete s now).processingBuffer.length < bufferSize
    by_cases hpb : s.processingBuffer = []
    · rw [(AudioStreamer.complete_of_empty s now hpb).2.1, hpb]
      simpa using hb
    · rw [(AudioStreamer.complete_of_nonempty s now hpb).2.1]
      simpa using hb
  | stop now => simpa [stepEvent, AudioStreamer.stop] using hb
  | resume now => simpa [stepEvent, AudioStreamer.resume] using h
  | tick now =>
    show (AudioStreamer.scheduleNextBuffer s now).processingBuffer.length < bufferSize
    rw [AudioStreamer.scheduleNextBuffer_processingBuffer]
    exact h
  | ended sid =>
    show (AudioStreamer.sourceEnded s sid).processingBuffer.length < bufferSize
    unfold AudioStreamer.sourceEnded
    split_ifs <;> simpa using h

lemma runEvents_processingBuffer_lt : ∀ (evs : List PEvent) (s : StreamerState),
    s.processingBuffer.length < bufferSize →
    (runEvents s evs).processingBuffer.length < bufferSize
  | [], _, h => h
  | e :: es, s, h =>
    runEvents_processingBuffer_lt es _ (stepEvent_processingBuffer_lt s e h)

/-- C1 (amended): for every sequence of `addPCM16` calls in which EACH call
passes an even-length PCM16 byte buffer (byte values < 256), the total
number of normalized samples produced equals `totalBytes / 2`; sample `i`
equals the little-endian signed 16-bit value at byte offset `2*i` of the
concatenated bytes divided by 32768, and every sample lies in `[-1, 1]`.
The strengthening from "concatenated length even" to "each chunk even" is
forced: an odd-length chunk silently drops its final byte (see the
counterexample), so only per-chunk evenness gives `totalBytes / 2`. -/
theorem c1_ingest_sample_decoding (evs : List (List Nat × ℚ))
    (heven : ∀ p ∈ evs, 2 ∣ p.1.length)
    (hbyte : ∀ p ∈ evs, ∀ b ∈ p.1, b < 256) :
    (runEvents initState (ingests evs)).samplesLog.length
        = (evs.map Prod.fst).flatten.length / 2 ∧
    (∀ i, i < (runEvents initState (ingests evs)).samplesLog.length →
      (runEvents initState (ingests evs)).samplesLog.getD i 0
        = ((toInt16 ((evs.map Prod.fst).flatten.getD (2 * i) 0)
              ((evs.map Prod.fst).flatten.getD (2 * i + 1) 0) : Int) : ℚ) / 32768) ∧
    (∀ x ∈ (runEvents initState (ingests evs)).samplesLog, -1 ≤ x ∧ x ≤ 1) := by
  obtain ⟨h1, -, -⟩ :=
    runEvents_ingests_char evs initState heven (by norm_num [initState, bufferSize])
  have hlog : (runEvents initState (ingests evs)).samplesLog
      = pcm16Samples (evs.map Prod.fst).flatten := by
    simpa [initState] using h1
  have hbfl : ∀ b ∈ (evs.map Prod.fst).flatten, b < 256 := by
    intro b hb
    rw [List.mem_flatten] at hb
    obtain ⟨c, hc, hbc⟩ := hb
    rw [List.mem_map] at hc
    obtain ⟨p, hp, hpc⟩ := hc
    exact hbyte p hp b (hpc ▸ hbc)
  refine ⟨?_, ?_, ?_⟩
  · rw [hlog, pcm16Samples_length]
  · intro i hi
    rw [hlog] at hi ⊢
    exact pcm16Samples_getD _ i hi
  · intro x hx
    rw [hlog] at hx
    exact pcm16Samples_mem_bounds _ hbfl x hx

/-- C1 witness: one concrete ingest call with bytes `[0, 0, 255, 127]`
(samples `0` and `32767/32768`). -/
theorem c1_ingest_sample_decoding_witness :
    (runEvents initState (ingests [([0, 0, 255, 127], 0)])).samplesLog.length
        = ([([0, 0, 255, 127], (0 : ℚ))].map Prod.fst).flatten.length / 2 ∧
    (∀ i, i < (runEvents initState (ingests [([0, 0, 255, 127], 0)])).samplesLog.length →
      (runEvents initState (ingests [([0, 0, 255, 127], 0)])).samplesLog.getD i 0
        = ((toInt16 (([([0, 0, 255, 127], (0 : ℚ))].map Prod.fst).flatten.getD (2 * i) 0)
              (([([0, 0, 255, 127], (0 : ℚ))].map Prod.fst).flatten.getD (2 * i + 1) 0)
              : Int) : ℚ) / 32768) ∧
    (∀ x ∈ (runEvents initState (ingests [([0, 0, 255, 127], 0)])).samplesLog,
      -1 ≤ x ∧ x ≤ 1) :=
  c1_ingest_sample_decoding [([0, 0, 255, 127], 0)]
    (by intro p hp; simp at hp; subst hp; decide)
    (by intro p hp b hb; simp at hp; subst hp; simp at hb; omega)

/-- C3 (amended): two ingest-call sequences whose concatenated bytes are
equal push the identical sequence of full frames onto the playback queue
(same count, same contents, same FIFO order), regardless of where the
EVEN-length chunk boundaries fall.  The restriction to even chunks is
forced: an odd-length chunk drops its trailing byte, so a split at an odd
offset changes the decoded sample stream and hence the pushed frames (see
the counterexample). -/
theorem c3_chunk_boundary_invariance (evs1 evs2 : List (List Nat × ℚ))
    (he1 : ∀ p ∈ evs1, 2 ∣ p.1.length) (he2 : ∀ p ∈ evs2, 2 ∣ p.1.length)
    (hbytes : (evs1.map Prod.fst).flatten = (evs2.map Prod.fst).flatten) :
    (runEvents initState (ingests evs1)).pushedLog
      = (runEvents initState (ingests evs2)).pushedLog := by
  obtain ⟨-, h1, -⟩ :=
    runEvents_ingests_char evs1 initState he1 (by norm_num [initState, bufferSize])
  obtain ⟨-, h2, -⟩ :=
    runEvents_ingests_char evs2 initState he2 (by norm_num [initState, bufferSize])
  rw [h1, h2, hbytes]

/-- C3 witness: one 4-byte chunk versus two 2-byte chunks with the same
concatenated bytes. -/
theorem c3_chunk_boundary_invariance_witness :
    (runEvents initState (ingests [([0, 0, 1, 0], 0)])).pushedLog
      = (runEvents initState (ingests [([0, 0], 0), ([1, 0], 1)])).pushedLog :=
  c3_chunk_boundary_invariance [([0, 0, 1, 0], 0)] [([0, 0], 0), ([1, 0], 1)]
    (by intro p hp; simp at hp; subst hp; decide)
    (by intro p hp; simp at hp; rcases hp with hp | hp <;> subst hp <;> decide)
    (by simp)

/-- C5: `complete()` sets the Stream Completion Flag; called with a non-empty
accumulation buffer it pushes the partial contents onto the playback queue as
a final frame rather than discarding them (and fires no immediate
notification); called with an empty accumulation buffer and nothing queued,
the completion notification fires immediately. -/
theorem c5_complete_flush_keeps_data (s : StreamerState) (now : ℚ) :
    (AudioStreamer.complete s now).isStreamComplete = true ∧
    (s.processingBuffer ≠ [] →
      (AudioStreamer.complete s now).pushedLog = s.pushedLog ++ [s.processingBuffer] ∧
      (AudioStreamer.complete s now).processingBuffer = [] ∧
      (AudioStreamer.complete s now).onCompleteCount = s.onCompleteCount) ∧
    (s.processingBuffer = [] → s.audioQueue = [] →
      (AudioStreamer.complete s now).onCompleteCount = s.onCompleteCount + 1) :=
  ⟨AudioStreamer.complete_isStreamComplete s now,
    fun h => AudioStreamer.complete_of_nonempty s now h,
    fun h _ => (AudioStreamer.complete_of_empty s now h).1⟩

/-- C5 witness: a state with a half-sample accumulation buffer is flushed; a
fresh state fires the notification immediately. -/
theorem c5_complete_flush_keeps_data_witness :
    (AudioStreamer.complete { initState with processingBuffer := [1/2] } 0).pushedLog
      = initState.pushedLog ++ [[1/2]] ∧
    (AudioStreamer.complete initState 0).onCompleteCount
      = initState.onCompleteCount + 1 :=
  ⟨((c5_complete_flush_keeps_data { initState with processingBuffer := [1/2] } 0).2.1
      (by simp)).1,
    (c5_complete_flush_keeps_data initState 0).2.2 rfl rfl⟩

/-- C6: the accumulation buffer holds strictly fewer samples than the frame
size after every sequence of operations (ingest, complete, stop, resume, and
the internal scheduling/onended events) from the initial state. -/
theorem c6_processing_buffer_lt_frame_size (evs : List PEvent) :
    (runEvents initState evs).processingBuffer.length < bufferSize :=
  runEvents_processingBuffer_lt evs initState (by norm_num [initState, bufferSize])

namespace AudioStreamer

lemma scheduleNextBuffer_scheduledTime (s : StreamerState) (now : ℚ) :
    (scheduleNextBuffer s now).scheduledTime
      = (schedLoopGo now s.audioQueue s).scheduledTime := by
  unfold scheduleNextBuffer
  dsimp only
  split_ifs <;> rfl

lemma scheduleNextBuffer_started (s : StreamerState) (now : ℚ) :
    (scheduleNextBuffer s now).started = (schedLoopGo now s.audioQueue s).started := by
  unfold scheduleNextBuffer
  dsimp only
  split_ifs <;> rfl

lemma scheduleNextBuffer_audioQueue (s : StreamerState) (now : ℚ) :
    (scheduleNextBuffer s now).audioQueue
      = (schedLoopGo now s.audioQueue s).audioQueue := by
  unfold scheduleNextBuffer
  dsimp only
  split_ifs <;> rfl

lemma scheduleNextBuffer_endOfQueueSource (s : StreamerState) (now : ℚ) :
    (scheduleNextBuffer s now).endOfQueueSource
      = (schedLoopGo now s.audioQueue s).endOfQueueSource := by
  unfold scheduleNextBuffer
  dsimp only
  split_ifs <;> rfl

/-- Scheduling-loop arithmetic on a queue of uniform-length frames when the
device clock has not overtaken the schedule clock: every started frame
advances the schedule clock by exactly one frame duration. -/
lemma schedLoopGo_uniform (now : ℚ) (L : Nat) :
    ∀ (q : List (List ℚ)) (s : StreamerState),
      (∀ f ∈ q, f.length = L) → now ≤ s.scheduledTime →
      ∃ k : ℕ,
        (schedLoopGo now q s).started.length = s.started.length + k ∧
        (schedLoopGo now q s).scheduledTime
            = s.scheduledTime + (k : ℚ) * ((L : ℚ) / sampleRate) ∧
        now ≤ (schedLoopGo now q s).scheduledTime ∧
        (∀ f ∈ (schedLoopGo now q s).audioQueue, f.length = L)
  | [], s, _, hnow =>
    ⟨0, by simp [schedLoopGo], by simp [schedLoopGo],
      by simpa [schedLoopGo] using hnow, by simp [schedLoopGo]⟩
  | f :: rest, s, hq, hnow => by
    rw [schedLoopGo]
    by_cases hcond : s.scheduledTime < now + scheduleAheadTime
    · rw [if_pos hcond]
      have hmax : max s.scheduledTime now = s.scheduledTime := max_eq_left hnow
      have hfL : f.length = L := hq f (by simp)
      have hdur : (0 : ℚ) ≤ (L : ℚ) / sampleRate := by
        unfold sampleRate
        positivity
      obtain ⟨k, hk1, hk2, hk3, hk4⟩ :=
        schedLoopGo_uniform now L rest
          { s with
            audioQueue := rest
            scheduledTime := max s.scheduledTime now + (f.length : ℚ) / sampleRate
            nextSid := s.nextSid + 1
            endOfQueueSource := if rest = [] then some s.nextSid else s.endOfQueueSource
            started := s.started ++ [(max s.scheduledTime now, f.length)] }
          (fun g hg => hq g (by simp [hg]))
          (by dsimp only; rw [hmax, hfL]; linarith)
      refine ⟨k + 1, ?_, ?_, hk3, hk4⟩
      · rw [hk1]
        dsimp only
        simp only [List.length_append, List.length_cons, List.length_nil]
        omega
      · rw [hk2]
        dsimp only
        rw [hmax, hfL]
        push_cast
        ring
    · rw [if_neg hcond]
      exact ⟨0, by simp, by simp, hnow, by simpa using hq⟩

end AudioStreamer

/-- Multi-pass scheduling arithmetic: over any jitter-free run of scheduling
passes on uniform-length frames, the schedule clock advances by exactly one
frame duration per started frame. -/
lemma runTicks_uniform (L : Nat) :
    ∀ (ts : List ℚ) (s : StreamerState),
      (∀ f ∈ s.audioQueue, f.length = L) →
      jitterFree s ts →
      ∃ k : ℕ,
        (runEvents s (ticks ts)).started.length = s.started.length + k ∧
        (runEvents s (ticks ts)).scheduledTime
            = s.scheduledTime + (k : ℚ) * ((L : ℚ) / sampleRate) ∧
        (∀ f ∈ (runEvents s (ticks ts)).audioQueue, f.length = L)
  | [], s, hq, _ =>
    ⟨0, by simp [ticks, runEvents], by simp [ticks, runEvents],
      by simpa [ticks, runEvents] using hq⟩
  | t :: ts, s, hq, hjf => by
    obtain ⟨hle, hjf2⟩ := hjf
    obtain ⟨k1, h11, h12, h13, h14⟩ :=
      AudioStreamer.schedLoopGo_uniform t L s.audioQueue s hq hle
    obtain ⟨k2, h21, h22, h23⟩ :=
      runTicks_uniform L ts (AudioStreamer.scheduleNextBuffer s t)
        (by rw [AudioStreamer.scheduleNextBuffer_audioQueue]; exact h14) hjf2
    refine ⟨k1 + k2, ?_, ?_, ?_⟩
    · show (runEvents (stepEvent s (PEvent.tick t)) (ticks ts)).started.length = _
      rw [show stepEvent s (PEvent.tick t) = AudioStreamer.scheduleNextBuffer s t
          from rfl, h21, AudioStreamer.scheduleNextBuffer_started, h11]
      omega
    · show (runEvents (stepEvent s (PEvent.tick t)) (ticks ts)).scheduledTime = _
      rw [show stepEvent s (PEvent.tick t) = AudioStreamer.scheduleNextBuffer s t
          from rfl, h22, AudioStreamer.scheduleNextBuffer_scheduledTime, h12]
      push_cast
      ring
    · show ∀ f ∈ (runEvents (stepEvent s (PEvent.tick t)) (ticks ts)).audioQueue, _
      rw [show stepEvent s (PEvent.tick t) = AudioStreamer.scheduleNextBuffer s t
          from rfl]
      exact h23

/-- C2 (amended): as long as the scheduler never runs late — at every
scheduling pass the device clock is at most the schedule clock — starting N
frames of uniform duration `L / 24000` from schedule time T0 leaves
`scheduledTime = T0 + N * (L / 24000)`.  (Without that proviso the claim
fails: see the counterexample.) -/
theorem c2_scheduled_time_jitter_free (s : StreamerState) (ts : List ℚ) (L : Nat)
    (hq : ∀ f ∈ s.audioQueue, f.length = L)
    (hjf : jitterFree s ts) :
    ∃ k : ℕ,
      (runEvents s (ticks ts)).started.length = s.started.length + k ∧
      (runEvents s (ticks ts)).scheduledTime
        = s.scheduledTime + (k : ℚ) * ((L : ℚ) / sampleRate) := by
  obtain ⟨k, h1, h2, -⟩ := runTicks_uniform L ts s hq hjf
  exact ⟨k, h1, h2⟩

/-- C2 witness for the amended claim: one frame of 2 samples started by a
jitter-free pass at device time 0 from schedule time 1/10. -/
theorem c2_scheduled_time_jitter_free_witness :
    ∃ k : ℕ,
      (runEvents
          { initState with
            audioQueue := [[0, 0]], isPlaying := true, scheduledTime := 1 / 10 }
          (ticks [0])).started.length
        = { initState with
            audioQueue := [[0, 0]], isPlaying := true,
            scheduledTime := 1 / 10 }.started.length + k ∧
      (runEvents
          { initState with
            audioQueue := [[0, 0]], isPlaying := true, scheduledTime := 1 / 10 }
          (ticks [0])).scheduledTime
        = { initState with
            audioQueue := [[0, 0]], isPlaying := true,
            scheduledTime := 1 / 10 }.scheduledTime
          + (k : ℚ) * ((2 : ℚ) / sampleRate) :=
  c2_scheduled_time_jitter_free _ [0] 2
    (by intro f hf; simp [initState] at hf; simp [hf])
    (by exact ⟨by norm_num [initState], trivial⟩)

/-- C2 counterexample: a run in which the device clock only advances (ticks
at times 0 then 1) starts both queued full frames from T0 = 199/1000, yet
`scheduledTime` ends at 33/25, not at `T0 + 2 * (7680/24000) = 839/1000`:
the second frame is started late, at `max(scheduledTime, now) = 1`, and the
schedule clock absorbs the slip. -/
theorem c2_scheduled_time_counterexample :
    (0 : ℚ) < 1 ∧
    (runEvents c2CexState (ticks [0, 1])).started.length
      = c2CexState.started.length + 2 ∧
    (runEvents c2CexState (ticks [0, 1])).scheduledTime
      ≠ c2CexState.scheduledTime + (2 : ℚ) * ((7680 : ℚ) / sampleRate) := by
  refine ⟨by norm_num, ?_, ?_⟩ <;>
    norm_num [runEvents, stepEvent, AudioStreamer.scheduleNextBuffer,
      AudioStreamer.schedLoopGo, ticks, c2CexState, initState, scheduleAheadTime,
      sampleRate, max_def, List.length_replicate]

namespace AudioStreamer

lemma scheduleNextBuffer_of_empty_queue (s : StreamerState) (now : ℚ)
    (h : s.audioQueue = []) :
    (scheduleNextBuffer s now).audioQueue = [] ∧
    (scheduleNextBuffer s now).endOfQueueSource = s.endOfQueueSource := by
  constructor
  · rw [scheduleNextBuffer_audioQueue, h]
    simp [schedLoopGo]
  · rw [scheduleNextBuffer_endOfQueueSource, h]
    simp [schedLoopGo]

lemma sourceEnded_fire (s : StreamerState) (sid : Nat)
    (h : s.audioQueue = [] ∧ s.endOfQueueSource = some sid) :
    sourceEnded s sid
      = { s with
          endOfQueueSource := none
          onCompleteCount := s.onCompleteCount + 1 } := by
  unfold sourceEnded
  rw [if_pos h]

lemma sourceEnded_noop (s : StreamerState) (sid : Nat)
    (h : ¬(s.audioQueue = [] ∧ s.endOfQueueSource = some sid)) :
    sourceEnded s sid = s := by
  unfold sourceEnded
  rw [if_neg h]

end AudioStreamer

/-- Once at most one end-of-queue source is armed and nothing can refill the
queue, drain events (scheduling passes and `onended` deliveries) can raise
the completion count at most to the cap `c`: any firing empties the slot and
the queue stays empty, so no second firing is possible. -/
lemma drain_count_bound (c : Nat) :
    ∀ (evs : List PEvent) (t : StreamerState),
      (∀ e ∈ evs, isDrainEvent e) →
      t.onCompleteCount ≤ c →
      (t.onCompleteCount = c → t.audioQueue = [] ∧ t.endOfQueueSource = none) →
      (runEvents t evs).onCompleteCount ≤ c
  | [], _, _, hle, _ => hle
  | e :: es, t, hdr, hle, hcap => by
    have hdes : ∀ e2 ∈ es, isDrainEvent e2 := fun e2 he2 => hdr e2 (by simp [he2])
    cases e with
    | tick now =>
      refine drain_count_bound c es _ hdes ?_ ?_
      · show (AudioStreamer.scheduleNextBuffer t now).onCompleteCount ≤ c
        rw [AudioStreamer.scheduleNextBuffer_onCompleteCount]
        exact hle
      · intro hc
        rw [show stepEvent t (PEvent.tick now)
            = AudioStreamer.scheduleNextBuffer t now from rfl,
          AudioStreamer.scheduleNextBuffer_onCompleteCount] at hc
        obtain ⟨hq, heoq⟩ := hcap hc
        obtain ⟨hq2, heoq2⟩ := AudioStreamer.scheduleNextBuffer_of_empty_queue t now hq
        exact ⟨hq2, heoq2.trans heoq⟩
    | ended sid =>
      by_cases hfire : t.audioQueue = [] ∧ t.endOfQueueSource = some sid
      · have hlt : t.onCompleteCount < c := by
          rcases Nat.lt_or_ge t.onCompleteCount c with hx | hx
          · exact hx
          · obtain ⟨-, heoq⟩ := hcap (le_antisymm hle hx)
            rw [heoq] at hfire
            exact absurd hfire.2 (by simp)
        refine drain_count_bound c es _ hdes ?_ ?_
        · show (AudioStreamer.sourceEnded t sid).onCompleteCount ≤ c
          rw [AudioStreamer.sourceEnded_fire t sid hfire]
          dsimp only
          omega
        · intro hc
          rw [show stepEvent t (PEvent.ended sid)
              = AudioStreamer.sourceEnded t sid from rfl,
            AudioStreamer.sourceEnded_fire t sid hfire]
          exact ⟨hfire.1, rfl⟩
      · refine drain_count_bound c es _ hdes ?_ ?_
        · show (AudioStreamer.sourceEnded t sid).onCompleteCount ≤ c
          rw [AudioStreamer.sourceEnded_noop t sid hfire]
          exact hle
        · intro hc
          rw [show stepEvent t (PEvent.ended sid)
              = AudioStreamer.sourceEnded t sid from rfl,
            AudioStreamer.sourceEnded_noop t sid hfire] at hc ⊢
          exact hcap hc
    | ingest chunk now =>
      have hx := hdr (PEvent.ingest chunk now) (by simp)
      simp [isDrainEvent] at hx
    | complete now =>
      have hx := hdr (PEvent.complete now) (by simp)
      simp [isDrainEvent] at hx
    | stop now =>
      have hx := hdr (PEvent.stop now) (by simp)
      simp [isDrainEvent] at hx
    | resume now =>
      have hx := hdr (PEvent.resume now) (by simp)
      simp [isDrainEvent] at hx

/-- C4 (amended): once `complete()` is called with a NON-empty accumulation
buffer (the flush path, which skips the immediate notification), the
completion notification fires at most once during the entire drain — the
end-of-queue `onended` guard disarms on firing and the queue can never
refill.  With an EMPTY accumulation buffer, `complete()` fires immediately
even while a scheduled end-of-queue frame is still playing, whose `onended`
callback fires a second notification: see the counterexample. -/
theorem c4_complete_fires_at_most_once_after_flush (s : StreamerState) (now : ℚ)
    (evs : List PEvent)
    (hpb : s.processingBuffer ≠ [])
    (hdr : ∀ e ∈ evs, isDrainEvent e) :
    (runEvents (AudioStreamer.complete s now) evs).onCompleteCount
      ≤ s.onCompleteCount + 1 := by
  apply drain_count_bound (s.onCompleteCount + 1) evs _ hdr
  · rw [(AudioStreamer.complete_of_nonempty s now hpb).2.2]
    omega
  · intro hc
    rw [(AudioStreamer.complete_of_nonempty s now hpb).2.2] at hc
    omega

/-- C4 witness for the amended claim: completing with accumulation buffer
`[1/2]` then draining with one scheduling pass and one `onended` delivery
fires at most one notification. -/
theorem c4_complete_fires_at_most_once_after_flush_witness :
    (runEvents
        (AudioStreamer.complete { initState with processingBuffer := [1/2] } 0)
        [PEvent.tick 0, PEvent.ended 0]).onCompleteCount
      ≤ { initState with processingBuffer := [1/2] }.onCompleteCount + 1 :=
  c4_complete_fires_at_most_once_after_flush
    { initState with processingBuffer := [1/2] } 0 [PEvent.tick 0, PEvent.ended 0]
    (by simp)
    (by
      intro e he
      simp only [List.mem_cons, List.not_mem_nil, or_false] at he
      rcases he with he | he <;> subst he <;> simp [isDrainEvent])

lemma pcm16Samples_replicate_zero : ∀ n : Nat,
    pcm16Samples (List.replicate (2 * n) 0) = List.replicate n 0
  | 0 => rfl
  | n + 1 => by
    have h2 : 2 * (n + 1) = 2 * n + 1 + 1 := by omega
    rw [h2, List.replicate_succ, List.replicate_succ]
    simp only [pcm16Samples, pcm16Samples_replicate_zero n, List.replicate_succ]
    norm_num [toInt16]

lemma extractFrames_exact (l : List ℚ) (h : l.length = bufferSize) :
    extractFrames l = ([l], []) := by
  rw [extractFrames, dif_pos (le_of_eq h.symm)]
  dsimp only
  rw [List.take_of_length_le (le_of_eq h), List.drop_eq_nil_of_le (le_of_eq h),
    extractFrames_small [] (by norm_num [bufferSize])]

/-- C4 counterexample: one session from the initial state — ingest exactly
one full frame (15360 bytes), then `complete()` while that frame is still
playing, then the `onended` callback of the frame.  The Stream Completion Flag is
set, queue and accumulation buffer have drained to empty, every scheduled
frame has ended — and `onComplete` has fired TWICE: once immediately from
`complete()` (whose else-branch fires whenever the accumulation buffer is
empty, even with a frame in flight) and once from the end-of-queue `onended`
guard. -/
theorem c4_on_complete_fires_twice_counterexample :
    (runEvents initState
        [PEvent.ingest (List.replicate 15360 0) 0, PEvent.complete (1/5),
          PEvent.ended 0]).isStreamComplete = true ∧
    (runEvents initState
        [PEvent.ingest (List.replicate 15360 0) 0, PEvent.complete (1/5),
          PEvent.ended 0]).audioQueue = [] ∧
    (runEvents initState
        [PEvent.ingest (List.replicate 15360 0) 0, PEvent.complete (1/5),
          PEvent.ended 0]).processingBuffer = [] ∧
    (runEvents initState
        [PEvent.ingest (List.replicate 15360 0) 0, PEvent.complete (1/5),
          PEvent.ended 0]).onCompleteCount = 2 := by
  have hdec : decodeChunkView (List.replicate 15360 0) 15360
      = List.replicate 7680 0 := by
    rw [decodeChunkView_eq _ _ (by norm_num) (by rw [List.length_replicate])]
    rw [List.take_of_length_le (by rw [List.length_replicate])]
    rw [show (List.replicate 15360 (0 : Nat)) = List.replicate (2 * 7680) 0 from rfl]
    exact pcm16Samples_replicate_zero 7680
  have hext : extractFrames (List.replicate 7680 (0 : ℚ))
      = ([List.replicate 7680 0], []) :=
    extractFrames_exact _ (by rw [List.length_replicate, bufferSize])
  refine ⟨?_, ?_, ?_, ?_⟩ <;>
    norm_num [runEvents, stepEvent, AudioStreamer.addPCM16, AudioStreamer.complete,
      AudioStreamer.sourceEnded, AudioStreamer.scheduleNextBuffer,
      AudioStreamer.schedLoopGo, initState, scheduleAheadTime, initialBufferTime,
      sampleRate, hdec, hext, List.length_replicate, max_def]

lemma checkStreamHealth_healthy : ∀ l : List MTrack,
    (∀ u ∈ l, trackUnhealthy u = false) →
    (checkStreamHealth l).2 = 0 ∧ (checkStreamHealth l).1 = l.length
  | [], _ => ⟨rfl, rfl⟩
  | t :: ts, h => by
    have ht : trackUnhealthy t = false := h t (by simp)
    have ih := checkStreamHealth_healthy ts (fun u hu => h u (by simp [hu]))
    simp [checkStreamHealth, ht, ih.1, ih.2]

lemma checkStreamHealth_first_unhealthy :
    ∀ (pre : List MTrack) (t : MTrack) (post : List MTrack),
      (∀ u ∈ pre, trackUnhealthy u = false) → trackUnhealthy t = true →
      (checkStreamHealth (pre ++ t :: post)).2 = 1 ∧
      (checkStreamHealth (pre ++ t :: post)).1 = pre.length + 1
  | [], t, post, _, ht => by simp [checkStreamHealth, ht]
  | u :: pre, t, post, hpre, ht => by
    have hu : trackUnhealthy u = false := hpre u (by simp)
    have ih := checkStreamHealth_first_unhealthy pre t post
      (fun v hv => hpre v (by simp [hv])) ht
    simp [checkStreamHealth, hu, ih.1, ih.2]

/-- C7 (amended): `start()` performs no single-flight guard: every call —
also while a start is already in flight — creates a fresh starting promise,
overwrites `this.starting` with it, and initiates a new hardware-stream
acquisition. -/
theorem c7_start_always_reacquires (s : RecorderState) :
    (startCall s).1 = s.nextId ∧
    (startCall s).2.starting = some s.nextId ∧
    (startCall s).2.getUserMediaCount = s.getUserMediaCount + 1 :=
  ⟨rfl, rfl, rfl⟩

/-- C7 counterexample: with a start already in flight (`starting` holds
promise 0, one acquisition made), a second `start()` call returns a DIFFERENT
promise and initiates a SECOND hardware acquisition — the source never checks
`this.starting` before launching a new one (lines 248-258). -/
theorem c7_single_flight_counterexample :
    c7CexState.starting = some 0 ∧
    (startCall c7CexState).1 ≠ 0 ∧
    (startCall c7CexState).2.getUserMediaCount = c7CexState.getUserMediaCount + 1 :=
  ⟨rfl, by decide, rfl⟩

/-- C8: a health-check pass over the current tracks inspects them in order,
triggers exactly one restart at the first disabled/muted/non-live track and
inspects nothing further that tick; an all-healthy track list triggers no
restart and is inspected in full. -/
theorem c8_health_check_first_unhealthy_restarts (pre post : List MTrack)
    (t : MTrack)
    (hpre : ∀ u ∈ pre, trackUnhealthy u = false)
    (ht : trackUnhealthy t = true) :
    (checkStreamHealth (pre ++ t :: post)).2 = 1 ∧
    (checkStreamHealth (pre ++ t :: post)).1 = pre.length + 1 ∧
    ∀ l : List MTrack, (∀ u ∈ l, trackUnhealthy u = false) →
      (checkStreamHealth l).2 = 0 ∧ (checkStreamHealth l).1 = l.length :=
  ⟨(checkStreamHealth_first_unhealthy pre t post hpre ht).1,
    (checkStreamHealth_first_unhealthy pre t post hpre ht).2,
    checkStreamHealth_healthy⟩

/-- C8 witness: a healthy track followed by a muted track followed by another
track — one restart, two tracks inspected; and the all-healthy singleton list
is fully inspected with no restart. -/
theorem c8_health_check_first_unhealthy_restarts_witness :
    (checkStreamHealth ([liveTrack] ++ mutedTrack :: [liveTrack])).2 = 1 ∧
    (checkStreamHealth ([liveTrack] ++ mutedTrack :: [liveTrack])).1
      = [liveTrack].length + 1 :=
  ⟨(c8_health_check_first_unhealthy_restarts [liveTrack] [liveTrack] mutedTrack
      (by intro u hu; simp at hu; subst hu; decide) (by decide)).1,
    (c8_health_check_first_unhealthy_restarts [liveTrack] [liveTrack] mutedTrack
      (by intro u hu; simp at hu; subst hu; decide) (by decide)).2.1⟩

/-- C9: when `restartStream()` fails to acquire a fresh microphone stream,
the failure is raised inside the try-block (`restartStreamBody` returns an
error), is caught rather than propagated (`restartStream` is total and
returns a state), an `error` notification is emitted, and the externally
observed pipeline state — the recording flag, the recording and metering
worklets, and the source node — is unchanged. -/
theorem c9_restart_failure_reported_state_preserved (s : RecorderState) :
    (∃ e, restartStreamBody s none = Except.error e) ∧
    (restartStream s none).recording = s.recording ∧
    (restartStream s none).recordingWorklet = s.recordingWorklet ∧
    (restartStream s none).vuWorklet = s.vuWorklet ∧
    (restartStream s none).sourceId = s.sourceId ∧
    (restartStream s none).errorCount = s.errorCount + 1 :=
  ⟨⟨(), rfl⟩, rfl, rfl, rfl, rfl, rfl⟩

/-- C10: `addPCM16` decodes from absolute offset 0 of the underlying buffer
of the chunk, not from the byteOffset of the view: the produced samples are the decoding
of the first `len` bytes of the underlying buffer; for a view with non-zero
byteOffset this differs from the bytes the view designates (concrete
mismatch below); with byteOffset 0 the decoding of the passed bytes is
correct. -/
theorem c10_decodes_from_buffer_start :
    (∀ (buffer : List Nat) (off len : Nat), 2 ∣ len → off + len ≤ buffer.length →
      decodeChunkView buffer len = pcm16Samples (buffer.take len)) ∧
    decodeChunkView [0, 0, 1, 0] 2 ≠ pcm16Samples (viewBytes [0, 0, 1, 0] 2 2) ∧
    (∀ (buffer : List Nat) (len : Nat), 2 ∣ len → len ≤ buffer.length →
      decodeChunkView buffer len = pcm16Samples (viewBytes buffer 0 len)) := by
  refine ⟨?_, ?_, ?_⟩
  · intro buffer off len h1 h2
    exact decodeChunkView_eq buffer len h1 (by omega)
  · norm_num [decodeChunkView, getInt16LE, toInt16, viewBytes, pcm16Samples,
      List.range_succ]
  · intro buffer len h1 h2
    rw [decodeChunkView_eq buffer len h1 h2]
    simp [viewBytes]

/-- C10 witness: decoding a whole 4-byte buffer as an offset-0 view. -/
theorem c10_decodes_from_buffer_start_witness :
    decodeChunkView [0, 0, 255, 127] 4
      = pcm16Samples ([0, 0, 255, 127].take 4) :=
  c10_decodes_from_buffer_start.1 [0, 0, 255, 127] 0 4 (by norm_num) (by norm_num)

/-- Decoding an all-zero buffer produces `len / 2` zero samples — also for
ODD `len`, where the `Float32Array(len / 2)` slot count truncates to
`floor(len / 2)` and the final boundary read contributes nothing. -/
lemma decodeChunkView_replicate_zero (n len : Nat) (h : len ≤ n) :
    decodeChunkView (List.replicate n 0) len = List.replicate (len / 2) 0 := by
  apply List.ext_getElem
  · rw [decodeChunkView_length, List.length_replicate]
  · intro i h1 h2
    have hi : i < len / 2 := by simpa [decodeChunkView_length] using h1
    have hib : 2 * i + 1 < (List.replicate n (0 : Nat)).length := by
      rw [List.length_replicate]
      omega
    simp only [decodeChunkView, List.getElem_map, List.getElem_range]
    rw [getInt16LE_eq _ i hib]
    rw [List.getD_eq_getElem _ _ (by omega : 2 * i < (List.replicate n (0:Nat)).length),
      List.getD_eq_getElem _ _ hib]
    simp [List.getElem_replicate, toInt16]

/-- C1 counterexample: two 1-byte ingest calls have concatenated byte length
2 (a multiple of 2), yet 0 normalized samples are produced, not 2/2 = 1: for
an odd-length chunk `new Float32Array(chunk.length / 2)` truncates to
`floor(len / 2)` slots and the boundary `getInt16` read throws and is
caught, so the trailing byte of each odd chunk is silently dropped. -/
theorem c1_odd_chunks_counterexample :
    2 ∣ (([([0], 0), ([0], 1)] : List (List Nat × ℚ)).map Prod.fst).flatten.length ∧
    (([([0], 0), ([0], 1)] : List (List Nat × ℚ)).map Prod.fst).flatten.length / 2
      = 1 ∧
    (runEvents initState (ingests [([0], 0), ([0], 1)])).samplesLog.length = 0 := by
  have hE : extractFrames ([] : List ℚ) = ([], []) :=
    extractFrames_small [] (by norm_num [bufferSize])
  refine ⟨by norm_num, by norm_num, ?_⟩
  norm_num [runEvents, stepEvent, AudioStreamer.addPCM16,
    AudioStreamer.scheduleNextBuffer, AudioStreamer.schedLoopGo, ingests,
    initState, decodeChunkView, List.range_zero, hE, initialBufferTime,
    scheduleAheadTime]

/-- C3 counterexample: the same 15360 zero bytes split as one chunk versus
as 15359-byte and 1-byte chunks (equal concatenations) push DIFFERENT frame
sequences: the single chunk yields 7680 samples and one full frame, while
the odd split decodes only `floor(15359 / 2) = 7679` samples (the trailing
byte of the odd chunk is dropped) plus 0 samples, so no frame is ever
pushed. -/
theorem c3_odd_split_counterexample :
    (([(List.replicate 15360 0, 0)] : List (List Nat × ℚ)).map Prod.fst).flatten
      = (([(List.replicate 15359 0, 0), (List.replicate 1 0, 1)]
          : List (List Nat × ℚ)).map Prod.fst).flatten ∧
    (runEvents initState (ingests [(List.replicate 15360 0, 0)])).pushedLog
      = [List.replicate 7680 0] ∧
    (runEvents initState
        (ingests [(List.replicate 15359 0, 0), (List.replicate 1 0, 1)])).pushedLog
      = [] := by
  have hdecA : decodeChunkView (List.replicate 15360 0) 15360
      = List.replicate 7680 0 := by
    rw [decodeChunkView_eq _ _ (by norm_num) (by rw [List.length_replicate])]
    rw [List.take_of_length_le (by rw [List.length_replicate])]
    rw [show (List.replicate 15360 (0 : Nat)) = List.replicate (2 * 7680) 0 from rfl]
    exact pcm16Samples_replicate_zero 7680
  have hextA : extractFrames (List.replicate 7680 (0 : ℚ))
      = ([List.replicate 7680 0], []) :=
    extractFrames_exact _ (by rw [List.length_replicate, bufferSize])
  have hdecB : decodeChunkView (List.replicate 15359 0) 15359
      = List.replicate 7679 0 := by
    have hx := decodeChunkView_replicate_zero 15359 15359 (le_refl _)
    norm_num at hx
    exact hx
  have hdecC : decodeChunkView [(0 : Nat)] 1 = [] := by
    simp [decodeChunkView]
  have hextB : extractFrames (List.replicate 7679 (0 : ℚ))
      = ([], List.replicate 7679 0) :=
    extractFrames_small _ (by rw [List.length_replicate]; norm_num [bufferSize])
  refine ⟨?_, ?_, ?_⟩
  · simp only [List.map_cons, List.map_nil, List.flatten_cons, List.flatten_nil,
      List.append_nil]
    rw [← List.replicate_add]
  · norm_num [runEvents, stepEvent, AudioStreamer.addPCM16,
      AudioStreamer.scheduleNextBuffer, AudioStreamer.schedLoopGo, ingests,
      initState, hdecA, hextA, List.length_replicate, initialBufferTime,
      scheduleAheadTime, sampleRate, max_def]
  · norm_num [runEvents, stepEvent, AudioStreamer.addPCM16,
      AudioStreamer.scheduleNextBuffer, AudioStreamer.schedLoopGo, ingests,
      initState, hdecB, hdecC, hextB, List.length_replicate, initialBufferTime,
      scheduleAheadTime, sampleRate, max_def]
